import Mathlib

/-!
# Verification of the ghostly-memory episode extraction and retrieval engine

This file gives a shallow embedding of the core logic of the repository:

* `src/types.ts`           — data model and the `ERROR_PATTERNS` constant,
* `src/storage/db.ts`      — the episode/raw-event store (modelled as a pure state),
* `src/storage/embeddings.ts` — similarity, keyword and confidence computations,
* `src/extraction/index.ts`   — error classification, signatures, episode extraction,
* `src/retrieval/index.ts`    — confidence-gated retrieval and suggestion.

JavaScript numbers are embedded as exact rationals (`ℚ`) where the code only
adds, multiplies, compares and divides, and as reals (`ℝ`) where a square root
appears (`cosineSimilarity`) or where values of both origins are combined
(`calculateConfidence`).  JavaScript strings are embedded as `String`/`List Char`;
the handful of regular-expression operations used by the source are implemented
directly as executable scanners whose semantics are derived from the ECMAScript
matching rules and documented at each definition.
-/

/-! ## JavaScript character classes and string helpers -/

/-- The ECMAScript `\s` character class (also the class used by `String.prototype.trim`
and by the `/\s+/` split): ASCII whitespace, NBSP, BOM, and the Unicode
space-separator code points. -/
def isJsWS (c : Char) : Bool :=
  c == ' ' || c == '\t' || c == '\n' || c.val == 0x0b || c.val == 0x0c || c == '\r' ||
  c.val == 0xa0 || c.val == 0x1680 ||
  (0x2000 ≤ c.val && c.val ≤ 0x200a) ||
  c.val == 0x2028 || c.val == 0x2029 || c.val == 0x202f || c.val == 0x205f ||
  c.val == 0x3000 || c.val == 0xfeff

/-- The ECMAScript `\w` character class: `[A-Za-z0-9_]`. -/
def isWordChar (c : Char) : Bool :=
  ('a' ≤ c && c ≤ 'z') || ('A' ≤ c && c ≤ 'Z') || ('0' ≤ c && c ≤ '9') || c == '_'

/-- Models `String.prototype.toLowerCase` (character-wise lowering; the
source only lowercases ASCII content).  Defined directly on the character list
so that it evaluates by kernel reduction. -/
def jsToLower (s : String) : String :=
  ⟨s.data.map Char.toLower⟩

/-- Case-insensitive prefix test: the first argument is a pattern given in lower
case, compared against the lowercased text.  Models matching a fixed literal
under the ECMAScript `i` flag. -/
def startsWithCI : List Char → List Char → Bool
  | [], _ => true
  | _ :: _, [] => false
  | p :: ps, c :: cs => (p == c.toLower) && startsWithCI ps cs

/-- Case-sensitive prefix test on character lists. -/
def startsWithChars : List Char → List Char → Bool
  | [], _ => true
  | _ :: _, [] => false
  | p :: ps, c :: cs => (p == c) && startsWithChars ps cs

/-- Substring containment on character lists (`needle` occurs somewhere in the
second argument).  Models `String.prototype.includes`. -/
def containsChars (needle : List Char) : List Char → Bool
  | [] => startsWithChars needle []
  | c :: cs => startsWithChars needle (c :: cs) || containsChars needle cs

/-- Models `s.includes(sub)` on JavaScript strings. -/
def jsIncludes (s sub : String) : Bool :=
  containsChars sub.data s.data

/-- Models `String.prototype.trim`: strip leading and trailing `\s` characters. -/
def jsTrim (s : String) : String :=
  ⟨((s.data.dropWhile isJsWS).reverse.dropWhile isJsWS).reverse⟩

/-- Models `s.split(c)` for a single-character string separator: every occurrence
of `c` separates segments, and the empty string splits to `[""]`. -/
def splitOnChar (sep : Char) : List Char → List (List Char)
  | [] => [[]]
  | c :: cs =>
    if c == sep then [] :: splitOnChar sep cs
    else
      match splitOnChar sep cs with
      | [] => [[c]]
      | h :: t => (c :: h) :: t

/-- Worker for `jsSplitWS`.  The flag records whether the scanner is inside a
run of whitespace that has already ended the previous segment; `cur` is the
current segment accumulated in reverse. -/
def splitWSGo : Bool → List Char → List Char → List (List Char)
  | _, [], cur => [cur.reverse]
  | inRun, c :: cs, cur =>
    if isJsWS c then
      if inRun then splitWSGo true cs cur
      else cur.reverse :: splitWSGo true cs []
    else splitWSGo false cs (c :: cur)

/-- Models `s.split(/\s+/)`: each maximal run of whitespace is one separator,
so leading (resp. trailing) whitespace contributes a leading (resp. trailing)
empty segment, and the empty string splits to `[""]` because the regular
expression does not match the empty string. -/
def jsSplitWS (l : List Char) : List (List Char) :=
  splitWSGo false l []

/-- Models `s.substring(0, n)`. -/
def jsSubstring0 (s : String) (n : ℕ) : String :=
  ⟨s.data.take n⟩

/-- Models the order-preserving deduplication performed by `[...new Set(xs)]`:
keep the first occurrence of each element. -/
def dedupFirst {α : Type} [DecidableEq α] : List α → List α → List α
  | _, [] => []
  | seen, a :: as =>
    if a ∈ seen then dedupFirst seen as else a :: dedupFirst (a :: seen) as

/-! ## Data model (`src/types.ts`) -/

/-- One executed command as captured from the terminal (`TerminalEvent` in
`src/types.ts`). -/
structure TerminalEvent where
  timestamp : ℤ
  cwd : String
  git_branch : Option String
  command : String
  exit_code : ℤ
  stderr : String
  stdout_truncated : String
  session_id : String
  project_hash : String
deriving DecidableEq

/-- A stored debugging episode as the rest of the program sees it (`Episode` in
`src/types.ts`).  The embedding is a numeric vector or `null`. -/
structure Episode where
  id : Option ℕ
  project_hash : String
  directory : String
  git_branch : Option String
  problem_summary : String
  environment : String
  fix_sequence : String
  keywords : String
  embedding : Option (List ℚ)
  first_seen : ℤ
  last_seen : ℤ
  occurrence_count : ℕ
deriving DecidableEq

/-- A persisted raw terminal event (`RawEvent` in `src/types.ts`), optionally
linked to the episode it contributed to. -/
structure RawEvent where
  id : Option ℕ
  episode_id : Option ℕ
  timestamp : ℤ
  cwd : String
  git_branch : Option String
  command : String
  exit_code : ℤ
  stderr : String
  stdout_truncated : String
  session_id : String
deriving DecidableEq

/-- The live-failure view used at query time (`RetrievalContext` in
`src/types.ts`). -/
structure RetrievalContext where
  cwd : String
  command : String
  exit_code : ℤ
  stderr : String
  git_branch : Option String
  project_hash : String
deriving DecidableEq

/-- Episode plus raw similarity and combined confidence (`RetrievalResult` in
`src/types.ts`). -/
structure RetrievalResult where
  episode : Episode
  similarity : ℝ
  confidence : ℝ

/-- The `ERROR_PATTERNS` constant of `src/types.ts`. -/
def ERROR_PATTERNS : List String :=
  ["error", "fail", "failed", "failure", "exception", "fatal", "E ",
   "ENOENT", "ECONNREFUSED", "EACCES", "ENOEXEC", "ERR_", "panic",
   " Segmentation fault", "core dumped"]

/-! ## Similarity engine and confidence scorer (`src/storage/embeddings.ts`) -/

/-- An embedding provider: maps a text to a numeric vector, or fails
(`generateEmbedding` in `src/storage/embeddings.ts` returns `null` without an
API key, on a network error, or on timeout).  The provider is external
(OpenAI), so it is a parameter of every operation that requests an embedding. -/
def EmbedFn : Type := String → Option (List ℚ)

/-- The text embedded for an episode (`generateEmbeddingText`). -/
def generateEmbeddingText (e : Episode) : String :=
  "Problem: " ++ e.problem_summary ++ "\n" ++
  "Directory: " ++ e.directory ++ "\n" ++
  "Environment: " ++ e.environment ++ "\n" ++
  "Fix: " ++ e.fix_sequence ++ "\n" ++
  "Keywords: " ++ e.keywords

/-- Models `generateEpisodeEmbedding`: embed the formatted episode text. -/
def generateEpisodeEmbedding (f : EmbedFn) (e : Episode) : Option (List ℚ) :=
  f (generateEmbeddingText e)

/-- Cosine similarity (`cosineSimilarity`): 0 on length mismatch, 0 when either
sum of squares is 0, otherwise dot product over the product of magnitudes.
The source's loop accumulates the dot product and both squared norms; with
equal lengths that is exactly the fold over the zipped lists.  A total
function: the degenerate cases return 0 rather than raising. -/
noncomputable def cosineSimilarity (a b : List ℚ) : ℝ :=
  if a.length ≠ b.length then 0
  else
    let dotProduct : ℚ := ((a.zip b).map fun p => p.1 * p.2).sum
    let normA : ℚ := (a.map fun x => x * x).sum
    let normB : ℚ := (b.map fun x => x * x).sum
    if normA = 0 ∨ normB = 0 then 0
    else (dotProduct : ℝ) / (Real.sqrt (normA : ℝ) * Real.sqrt (normB : ℝ))

/-- The token set of a string under `text.toLowerCase().split(/\s+/)` followed
by `new Set(...)`. -/
def tokensOf (t : String) : Finset (List Char) :=
  (jsSplitWS (jsToLower t).data).toFinset

/-- Textual fallback similarity (`textSimilarity`): Jaccard index of the two
lowercased whitespace-token sets.  In Lean, division by a zero denominator
yields 0; in the source the denominator `union.size` is never 0 because a
JavaScript `split` always returns at least one (possibly empty) token. -/
def textSimilarity (t1 t2 : String) : ℚ :=
  let words1 := tokensOf t1
  let words2 := tokensOf t2
  ((words1 ∩ words2).card : ℚ) / ((words1 ∪ words2).card : ℚ)

/-- The stop-word list of `extractKeywords`. -/
def commonWords : List String :=
  ["the", "a", "an", "and", "or", "but", "in", "on", "at", "to", "for",
   "of", "with", "by", "from", "is", "was", "are", "were", "been", "be",
   "have", "has", "had", "do", "does", "did", "will", "would", "could",
   "should", "may", "might", "must", "can", "this", "that", "these",
   "those", "i", "you", "he", "she", "it", "we", "they", "what", "which",
   "who", "when", "where", "why", "how", "all", "each", "every", "both",
   "few", "more", "most", "other", "some", "such", "no", "nor", "not",
   "only", "own", "same", "so", "than", "too", "very", "just", "error",
   "failed", "fail", "failed", "file", "module", "import", "export"]

/-- Models `extractKeywords`: lowercase, replace every character outside
`[a-z0-9\s]` by a space, split on whitespace runs, keep tokens longer than two
characters that are not stop words, deduplicate preserving first occurrence,
and keep at most ten. -/
def extractKeywords (text : String) : List String :=
  let cleaned := (jsToLower text).data.map fun c =>
    if ('a' ≤ c && c ≤ 'z') || ('0' ≤ c && c ≤ '9') || isJsWS c then c else ' '
  let words := (jsSplitWS cleaned).map fun l => String.mk l
  let words := words.filter fun w => 2 < w.length && !(commonWords.contains w)
  (dedupFirst [] words).take 10

/-- Confidence scorer (`calculateConfidence`): the fixed weighted sum
`0.5 * semantic + 0.3 * (1 if project matches else 0) + 0.2 * command`,
clamped above at 1 by `Math.min(score, 1)`. -/
noncomputable def calculateConfidence (semanticSimilarity : ℝ)
    (projectMatch : Bool) (commandSimilarity : ℝ) : ℝ :=
  let score :=
    0.5 * semanticSimilarity +
    0.3 * (if projectMatch then (1 : ℝ) else 0) +
    0.2 * commandSimilarity
  min score 1

/-! ## The episode store (`src/storage/db.ts`)

The SQLite database is modelled as a pure state: a list of episode rows, a list
of raw-event rows, and the two auto-increment counters.  Rows keep insertion
order, which is the order an unordered `SELECT` returns in sql.js. -/

/-- A row of the `episodes` table.  The `embedding` column is a BLOB: a byte
sequence.  `insertEpisode` builds it with `new Uint8Array(episode.embedding)`,
which converts every numeric component with the ECMAScript `ToUint8` operation
(truncate toward zero, then reduce modulo 256). -/
structure EpisodeRow where
  id : ℕ
  project_hash : String
  directory : String
  git_branch : Option String
  problem_summary : String
  environment : String
  fix_sequence : String
  keywords : String
  embedding : Option (List ℕ)
  first_seen : ℤ
  last_seen : ℤ
  occurrence_count : ℕ
deriving DecidableEq

/-- The persistent store: `episodes` and `raw_events` tables plus the two
`AUTOINCREMENT` counters (SQLite row ids start at 1). -/
structure Store where
  episodes : List EpisodeRow
  events : List RawEvent
  nextEpisodeId : ℕ
  nextEventId : ℕ
deriving DecidableEq

/-- A freshly initialised database (`initSchema` creates empty tables). -/
def emptyStore : Store := ⟨[], [], 1, 1⟩

/-- The ECMAScript `ToUint8` conversion applied to each vector component by
`new Uint8Array(numbers)`: truncate the number toward zero and reduce modulo
256 (so `0.5 ↦ 0`, `-1 ↦ 255`, `257.9 ↦ 1`). -/
def toUint8 (q : ℚ) : ℕ :=
  let t : ℤ := if q < 0 then -(q.num.natAbs / q.den : ℕ) else (q.num.natAbs / q.den : ℕ)
  (t % 256).toNat

/-- Models `rowToEpisode`: read a row back into an `Episode`.  The BLOB bytes
are returned as the numeric vector (`Array.from(new Uint8Array(obj.embedding))`). -/
def rowToEpisode (r : EpisodeRow) : Episode :=
  { id := some r.id
    project_hash := r.project_hash
    directory := r.directory
    git_branch := r.git_branch
    problem_summary := r.problem_summary
    environment := r.environment
    fix_sequence := r.fix_sequence
    keywords := r.keywords
    embedding := r.embedding.map fun bs => bs.map fun b => (b : ℚ)
    first_seen := r.first_seen
    last_seen := r.last_seen
    occurrence_count := r.occurrence_count }

/-- Models `insertEpisode`: append a new row (serialising the embedding through
`Uint8Array`) and return the fresh row id. -/
def Store.insertEpisode (st : Store) (e : Episode) : ℕ × Store :=
  let row : EpisodeRow :=
    { id := st.nextEpisodeId
      project_hash := e.project_hash
      directory := e.directory
      git_branch := e.git_branch
      problem_summary := e.problem_summary
      environment := e.environment
      fix_sequence := e.fix_sequence
      keywords := e.keywords
      embedding := e.embedding.map fun v => v.map toUint8
      first_seen := e.first_seen
      last_seen := e.last_seen
      occurrence_count := e.occurrence_count }
  (st.nextEpisodeId,
   { st with episodes := st.episodes ++ [row], nextEpisodeId := st.nextEpisodeId + 1 })

/-- The partial update accepted by `updateEpisode` (`Partial<Episode>` restricted
to the three fields the source inspects).  An outer `none` means the field is
absent (`undefined`) and is left unchanged. -/
structure EpisodeUpdate where
  last_seen : Option ℤ
  occurrence_count : Option ℕ
  embedding : Option (Option (List ℚ))

/-- Models `updateEpisode`: set the provided fields on every row with the given
id (the `WHERE id = ?` clause; ids are unique in an actual database). -/
def Store.updateEpisode (st : Store) (id : ℕ) (u : EpisodeUpdate) : Store :=
  { st with episodes := st.episodes.map fun r =>
      if r.id = id then
        { r with
          last_seen := u.last_seen.getD r.last_seen
          occurrence_count := u.occurrence_count.getD r.occurrence_count
          embedding :=
            match u.embedding with
            | some e => e.map fun v => v.map toUint8
            | none => r.embedding }
      else r }

/-- Models `findSimilarEpisode`: the first row whose `(project_hash,
problem_summary)` pair matches (`SELECT ... LIMIT 1`), converted by
`rowToEpisode`. -/
def Store.findSimilarEpisode (st : Store) (projectHash problemSummary : String) :
    Option Episode :=
  (st.episodes.find? fun r =>
      r.project_hash == projectHash && r.problem_summary == problemSummary).map
    rowToEpisode

/-- Models `getEpisodesByProject`: all rows of the project, ordered by
`last_seen` descending, converted by `rowToEpisode`. -/
def Store.getEpisodesByProject (st : Store) (projectHash : String) : List Episode :=
  (List.insertionSort (fun a b : EpisodeRow => b.last_seen ≤ a.last_seen)
      (st.episodes.filter fun r => r.project_hash == projectHash)).map rowToEpisode

/-- Models `insertRawEvent`: append the record with a fresh row id and return
the id. -/
def Store.insertRawEvent (st : Store) (e : RawEvent) : ℕ × Store :=
  (st.nextEventId,
   { st with
      events := st.events ++ [{ e with id := some st.nextEventId }]
      nextEventId := st.nextEventId + 1 })

/-- Models `getRecentEventsForDirectory`: raw events of the directory strictly
after `since`, ordered by timestamp descending. -/
def Store.getRecentEventsForDirectory (st : Store) (cwd : String) (since : ℤ) :
    List RawEvent :=
  List.insertionSort (fun a b : RawEvent => b.timestamp ≤ a.timestamp)
    (st.events.filter fun e => e.cwd == cwd && since < e.timestamp)

/-! ## Event classification and episode extraction (`src/extraction/index.ts`) -/

/-- Hexadecimal digit for a value below 16. -/
def hexDigit (n : ℕ) : Char :=
  if n < 10 then Char.ofNat ('0'.toNat + n) else Char.ofNat ('a'.toNat + (n - 10))

/-- Render a natural number below `16 ^ 12` as exactly twelve lowercase hex
digits. -/
def toHex12 (n : ℕ) : String :=
  ⟨((List.range 12).map fun i => hexDigit (n / 16 ^ (11 - i) % 16))⟩

/-- Models `hashProjectPath`, the source's
`CryptoJS.MD5(cwd).toString().substring(0, 12)`.  Modelled from the spec: the
MD5 digest itself is external library code (`crypto-js`); the spec requires
only "a short deterministic digest derived from the working directory path"
and states that "a weak hash suffices because this is a grouping key, not a
security boundary".  It is modelled as a 12-hex-digit polynomial hash: equal
directories always yield equal identities, which is the only property the
engine relies on. -/
def hashProjectPath (cwd : String) : String :=
  toHex12 (cwd.data.foldl (fun a c => (a * 131 + c.toNat) % 16 ^ 12) 7)

/-- Models `isError`: nonzero exit code, or the lowercased stderr contains one
of the lowercased `ERROR_PATTERNS`. -/
def isError (stderr : String) (exitCode : ℤ) : Bool :=
  exitCode != 0 ||
    ERROR_PATTERNS.any fun pattern => jsIncludes (jsToLower stderr) (jsToLower pattern)

/-- Decides whether the ECMAScript pattern `\s*(.+?)(?:\n|$)` matches at the
start of `u` (the text following `Error:`/`Exception:`).  Unfolding the
backtracking: the match succeeds exactly when some position `p` preceded only
by `\s` characters holds a character other than `'\n'` — i.e. either the
whitespace prefix contains a non-newline whitespace character, or a
non-whitespace character follows the whitespace prefix. -/
def tailMatches (u : List Char) : Bool :=
  (u.takeWhile isJsWS).any (fun c => c != '\n') || !(u.dropWhile isJsWS).isEmpty

/-- First capture group of `/(Error|Exception):\s*(.+?)(?:\n|$)/i`: scan left to
right; at the first position where `error:` or `exception:` matches
case-insensitively and the remainder admits the rest of the pattern, group 1 is
the alternation's text as written (5 or 9 characters). -/
def errorColonMatch : List Char → Option (List Char)
  | [] => none
  | c :: cs =>
    if startsWithCI "error:".data (c :: cs) && tailMatches ((c :: cs).drop 6) then
      some ((c :: cs).take 5)
    else if startsWithCI "exception:".data (c :: cs) &&
        tailMatches ((c :: cs).drop 10) then
      some ((c :: cs).take 9)
    else errorColonMatch cs

/-- First capture group of `/(ERR_\w+)/i`: the leftmost case-insensitive
occurrence of `err_` followed by at least one word character; `\w+` is greedy,
so the group extends to the end of the word-character run. -/
def errCodeMatch : List Char → Option (List Char)
  | [] => none
  | c :: cs =>
    if startsWithCI "err_".data (c :: cs) &&
        !(((c :: cs).drop 4).takeWhile isWordChar).isEmpty then
      some ((c :: cs).take 4 ++ ((c :: cs).drop 4).takeWhile isWordChar)
    else errCodeMatch cs

/-- First capture group of `/(\w+\s+error)/i`.  Because `\w` and `\s` are
disjoint classes, backtracking inside `\w+` and `\s+` is vacuous: a match at a
position is the maximal word run there, followed by the maximal whitespace run,
followed by `error` case-insensitively. -/
def wordErrorMatch : List Char → Option (List Char)
  | [] => none
  | c :: cs =>
    if isWordChar c then
      let wordRun := (c :: cs).takeWhile isWordChar
      let rest := (c :: cs).dropWhile isWordChar
      let wsRun := rest.takeWhile isJsWS
      let afterWs := rest.dropWhile isJsWS
      if !wsRun.isEmpty && startsWithCI "error".data afterWs then
        some (wordRun ++ wsRun ++ afterWs.take 5)
      else wordErrorMatch cs
    else wordErrorMatch cs

/-- The combined `stderr.match(...) || stderr.match(...) || stderr.match(...)`
chain of `extractErrorSignature`, returning the first capture group of the
first pattern that matches anywhere in the string. -/
def jsErrorMatch (stderr : String) : Option String :=
  match errorColonMatch stderr.data with
  | some g => some ⟨g⟩
  | none =>
    match errCodeMatch stderr.data with
    | some g => some ⟨g⟩
    | none =>
      match wordErrorMatch stderr.data with
      | some g => some ⟨g⟩
      | none => none

/-- The `stderr.split('\n').filter(l => l.trim())` prefix of
`extractErrorSignature`: the first line whose trimmed form is non-empty, or the
empty string. -/
def firstNonBlankLine (stderr : String) : String :=
  let lines := ((splitOnChar '\n' stderr.data).map fun l => String.mk l).filter
    fun l => jsTrim l != ""
  lines.headD ""

/-- Models `extractErrorSignature`: prefer the first capture group of the three
error patterns, otherwise fall back to the first non-blank line; either way the
result is cut to 100 characters by `substring(0, 100)`.  The `command`
parameter is accepted and ignored, as in the source. -/
def extractErrorSignature (stderr command : String) : String :=
  match jsErrorMatch stderr with
  | some g => jsSubstring0 g 100
  | none => jsSubstring0 (firstNonBlankLine stderr) 100

/-- Models `getEnvironment`.  Modelled from the spec: `os.platform()`,
`os.arch()` and `process.version` are host externals; the spec calls the field
a "free-text environment description", so it is modelled as a fixed
description string of the same shape. -/
def getEnvironment : String := "linux | x64 | v20.0.0"

/-- The raw-event record `processEvent` inserts for every incoming event,
with `episode_id: null`. -/
def toUnlinkedRaw (ev : TerminalEvent) : RawEvent :=
  { id := none
    episode_id := none
    timestamp := ev.timestamp
    cwd := ev.cwd
    git_branch := ev.git_branch
    command := ev.command
    exit_code := ev.exit_code
    stderr := ev.stderr
    stdout_truncated := ev.stdout_truncated
    session_id := ev.session_id }

/-- The raw-event record `extractEpisode` inserts for the triggering error
event, linked to the new episode id. -/
def toLinkedRaw (epId : ℕ) (ev : TerminalEvent) : RawEvent :=
  { toUnlinkedRaw ev with episode_id := some epId }

/-- The raw-event record `extractEpisode` inserts for a following event,
linked to the new episode id (the spread copies the data fields; the row id is
assigned afresh by the insert). -/
def relinkRaw (epId : ℕ) (e : RawEvent) : RawEvent :=
  { e with id := none, episode_id := some epId }

/-- Models `extractEpisode`: empty following list yields nothing; a matching
existing episode is updated (`last_seen := now`, `occurrence_count + 1`) and
nothing is returned; otherwise a new episode is assembled, an embedding is
requested (best-effort), the episode is inserted, and the triggering event plus
every following event are persisted linked to the new id.  `Date.now()` is the
`now` parameter; the embedding provider is the `f` parameter. -/
def extractEpisode (now : ℤ) (f : EmbedFn) (st : Store)
    (errorEvent : TerminalEvent) (followingCommands : List RawEvent) :
    Option Episode × Store :=
  if followingCommands.isEmpty then (none, st)
  else
    let problemSignature := extractErrorSignature errorEvent.stderr errorEvent.command
    let projectHash := hashProjectPath errorEvent.cwd
    match st.findSimilarEpisode projectHash problemSignature with
    | some existing =>
      (none, st.updateEpisode (existing.id.getD 0)
        ⟨some now, some (existing.occurrence_count + 1), none⟩)
    | none =>
      let fixCommands :=
        ((followingCommands.filter fun e => e.exit_code == 0).map
          fun e => e.command).take 5
      let joined := String.intercalate " && " fixCommands
      let fixSequence := if joined == "" then "Unknown fix" else joined
      let keywordsText :=
        errorEvent.command ++ " " ++ errorEvent.stderr ++ " " ++ fixSequence
      let keywords := String.intercalate ", " (extractKeywords keywordsText)
      let episode0 : Episode :=
        { id := none
          project_hash := projectHash
          directory := errorEvent.cwd
          git_branch := errorEvent.git_branch
          problem_summary := problemSignature
          environment := getEnvironment
          fix_sequence := fixSequence
          keywords := keywords
          embedding := none
          first_seen := errorEvent.timestamp
          last_seen := now
          occurrence_count := 1 }
      let episode :=
        match generateEpisodeEmbedding f episode0 with
        | some v => { episode0 with embedding := some v }
        | none => episode0
      let (id, st1) := st.insertEpisode episode
      let st2 := (st1.insertRawEvent (toLinkedRaw id errorEvent)).2
      let st3 := followingCommands.foldl
        (fun s e => (s.insertRawEvent (relinkRaw id e)).2) st2
      (some { episode with id := some id }, st3)

/-- The following-events window `processEvent` computes after storing the raw
event: all stored events of the same directory within the trailing five
minutes, restricted to those strictly after the error, sorted ascending by
timestamp. -/
def followingEventsOf (now : ℤ) (st : Store) (ev : TerminalEvent) : List RawEvent :=
  let fiveMinutesAgo := now - 5 * 60 * 1000
  let recentEvents := st.getRecentEventsForDirectory ev.cwd fiveMinutesAgo
  List.insertionSort (fun a b : RawEvent => a.timestamp ≤ b.timestamp)
    (recentEvents.filter fun e => ev.timestamp < e.timestamp)

/-- Models `processEvent`: store the raw event unlinked, stop unless it is an
error, then attempt extraction over the following-events window. -/
def processEvent (now : ℤ) (f : EmbedFn) (st : Store) (event : TerminalEvent) :
    Option Episode × Store :=
  let st1 := (st.insertRawEvent (toUnlinkedRaw event)).2
  if !isError event.stderr event.exit_code then (none, st1)
  else extractEpisode now f st1 event (followingEventsOf now st1 event)

/-! ## Retrieval orchestrator (`src/retrieval/index.ts`) -/

/-- The display threshold `CONFIDENCE_THRESHOLD = 0.75`. -/
noncomputable def CONFIDENCE_THRESHOLD : ℝ := 0.75

/-- Models `shouldRetrieve`: retrieval fires on a nonzero exit code or an error
pattern in the lowercased stderr. -/
def shouldRetrieve (context : RetrievalContext) : Bool :=
  context.exit_code != 0 ||
    ERROR_PATTERNS.any fun pattern => jsIncludes (jsToLower context.stderr) (jsToLower pattern)

/-- The query text embedded for the live error
(`` `Error: ${context.stderr}\nCommand: ${context.command}` ``). -/
def currentErrorText (context : RetrievalContext) : String :=
  "Error: " ++ context.stderr ++ "\nCommand: " ++ context.command

/-- The per-episode scoring step of the loop in `retrieveSimilarEpisodes`:
vector similarity when both the query embedding and the episode embedding are
present, textual fallback otherwise; the confidence combines the similarity,
the project-match flag and the problem-summary/stderr Jaccard similarity. -/
noncomputable def scoreEpisode (currentEmbedding : Option (List ℚ))
    (context : RetrievalContext) (projectHash : String) (episode : Episode) :
    RetrievalResult :=
  let similarity : ℝ :=
    match currentEmbedding, episode.embedding with
    | some ce, some ee => cosineSimilarity ce ee
    | _, _ =>
      ((textSimilarity (episode.problem_summary ++ " " ++ episode.keywords)
        (context.stderr ++ " " ++ context.command) : ℚ) : ℝ)
  let projectMatch := episode.project_hash == projectHash
  let commandSimilarity : ℝ :=
    ((textSimilarity episode.problem_summary context.stderr : ℚ) : ℝ)
  { episode := episode
    similarity := similarity
    confidence := calculateConfidence similarity projectMatch commandSimilarity }

open scoped Classical in
/-- Models `retrieveSimilarEpisodes`: score every episode of the project, keep
those whose confidence reaches `CONFIDENCE_THRESHOLD`, sort descending by
confidence, and truncate to `maxResults`. -/
noncomputable def retrieveSimilarEpisodes (f : EmbedFn) (st : Store)
    (context : RetrievalContext) (maxResults : ℕ) : List RetrievalResult :=
  let projectHash := hashProjectPath context.cwd
  let projectEpisodes := st.getEpisodesByProject projectHash
  if projectEpisodes.isEmpty then []
  else
    let currentEmbedding := f (currentErrorText context)
    let results := (projectEpisodes.map
        (scoreEpisode currentEmbedding context projectHash)).filter
      fun r => CONFIDENCE_THRESHOLD ≤ r.confidence
    (List.insertionSort
        (fun a b : RetrievalResult => b.confidence ≤ a.confidence) results).take
      maxResults

/-- Models the `toLocaleDateString` rendering of `last_seen`.  Modelled from
the spec: locale-dependent date formatting is host-library behaviour
("presentation/formatting" is out of scope); only the fact that some date text
is interpolated matters, so the timestamp is rendered directly. -/
def formatDate (t : ℤ) : String := toString t

/-- Models the `(confidence * 100).toFixed(0)` rendering.  Modelled from the
spec: `toFixed` is host-library decimal formatting; it is modelled as rounding
to the nearest integer and rendering that. -/
noncomputable def formatPercent (x : ℝ) : String := toString ⌊x * 100 + 1 / 2⌋

/-- Models `formatRetrievalResult`: the human-readable suggestion block. -/
noncomputable def formatRetrievalResult (result : RetrievalResult) : String :=
  "💭 You hit something similar before:\n\n" ++
  "Last time (" ++ formatDate result.episode.last_seen ++ "):\n" ++
  "- Problem: " ++ result.episode.problem_summary ++ "\n" ++
  "- Fix: " ++ result.episode.fix_sequence ++ "\n\n" ++
  "Occurrences: " ++ toString result.episode.occurrence_count ++ "\n" ++
  "Confidence: " ++ formatPercent result.confidence ++ "%"

/-- Models `suggestNextStep`: the first command of the fix sequence (split on
`" && "`), or `null` when it trims to the empty string. -/
def suggestNextStep (result : RetrievalResult) : Option String :=
  let fixCommands := result.episode.fix_sequence.splitOn " && "
  let first := jsTrim (fixCommands.headD "")
  if first != "" then some first else none

/-- The tri-state result of `retrieveAndSuggest`. -/
structure SuggestOutput where
  shouldShow : Bool
  message : Option String
  suggestedCommand : Option String

/-- Models `retrieveAndSuggest`: nothing unless `shouldRetrieve` fires; then
the top-1 retrieval; nothing if it is empty; otherwise the formatted top result
and its suggested next command. -/
noncomputable def retrieveAndSuggest (f : EmbedFn) (st : Store)
    (context : RetrievalContext) : SuggestOutput :=
  if !shouldRetrieve context then
    { shouldShow := false, message := none, suggestedCommand := none }
  else
    match retrieveSimilarEpisodes f st context 1 with
    | [] => { shouldShow := false, message := none, suggestedCommand := none }
    | topResult :: _ =>
      { shouldShow := true
        message := some (formatRetrievalResult topResult)
        suggestedCommand := suggestNextStep topResult }

/-! ## Helper lemmas -/

/-- A JavaScript `split(/\s+/)` always produces at least one segment. -/
theorem splitWSGo_ne_nil : ∀ (b : Bool) (l cur : List Char), splitWSGo b l cur ≠ [] := by
  intro b l
  induction l generalizing b with
  | nil => intro cur; simp [splitWSGo]
  | cons c cs ih =>
    intro cur
    simp only [splitWSGo]
    by_cases hws : isJsWS c
    · by_cases hb : b
      · simpa [hws, hb] using ih true cur
      · simp [hws, hb]
    · simpa [hws] using ih false (c :: cur)

/-- The token set of any string is non-empty (even the empty string tokenizes
to the singleton empty token). -/
theorem tokensOf_nonempty (s : String) : (tokensOf s).Nonempty := by
  obtain ⟨a, t, h⟩ :=
    List.exists_cons_of_ne_nil (splitWSGo_ne_nil false (jsToLower s).data [])
  refine ⟨a, ?_⟩
  unfold tokensOf jsSplitWS
  rw [h]
  exact List.mem_toFinset.mpr (List.mem_cons_self a t)

/-- Truncation to at most `n` characters. -/
theorem jsSubstring0_length_le (s : String) (n : ℕ) : (jsSubstring0 s n).length ≤ n := by
  show (s.data.take n).length ≤ n
  exact List.length_take_le n s.data

/-! ## Claims -/

/-- C2: for all inputs `s`, `p`, `c`, `calculateConfidence s p c` equals
`min (0.5*s + 0.3*(1 if p else 0) + 0.2*c) 1` — the fixed weighted sum clamped
above at 1 with no clamping at the low end — and in particular
`calculateConfidence 0.9 true 0.4 = 0.83`. -/
theorem c2_calculateConfidence_formula :
    (∀ (s : ℝ) (p : Bool) (c : ℝ),
      calculateConfidence s p c =
        min (0.5 * s + 0.3 * (if p then (1 : ℝ) else 0) + 0.2 * c) 1) ∧
    calculateConfidence 0.9 true 0.4 = 0.83 := by
  constructor
  · intro s p c
    rfl
  · simp only [calculateConfidence]
    norm_num

/-- C7: `calculateConfidence` is monotonically non-decreasing in each of its
three inputs individually (for the boolean input, `false` to `true` never
decreases the result), and its result is always at most 1. -/
theorem c7_calculateConfidence_monotone :
    (∀ (s₁ s₂ : ℝ) (p : Bool) (c : ℝ), s₁ ≤ s₂ →
      calculateConfidence s₁ p c ≤ calculateConfidence s₂ p c) ∧
    (∀ (s c : ℝ),
      calculateConfidence s false c ≤ calculateConfidence s true c) ∧
    (∀ (s : ℝ) (p : Bool) (c₁ c₂ : ℝ), c₁ ≤ c₂ →
      calculateConfidence s p c₁ ≤ calculateConfidence s p c₂) ∧
    (∀ (s : ℝ) (p : Bool) (c : ℝ), calculateConfidence s p c ≤ 1) := by
  refine ⟨?_, ?_, ?_, ?_⟩
  · intro s₁ s₂ p c h
    simp only [calculateConfidence]
    exact min_le_min (by nlinarith) le_rfl
  · intro s c
    simp only [calculateConfidence, Bool.false_eq_true, if_false, if_true]
    exact min_le_min (by nlinarith) le_rfl
  · intro s p c₁ c₂ h
    simp only [calculateConfidence]
    exact min_le_min (by nlinarith) le_rfl
  · intro s p c
    simp only [calculateConfidence]
    exact min_le_right _ _
/-- Witness for C7 at concrete inputs. -/
theorem c7_witness :
    calculateConfidence 0 true 0 ≤ calculateConfidence 1 true 0 ∧
    calculateConfidence 0 false 0 ≤ calculateConfidence 0 true 0 ∧
    calculateConfidence 0 true 0 ≤ calculateConfidence 0 true 1 ∧
    calculateConfidence 1 true 1 ≤ 1 :=
  ⟨c7_calculateConfidence_monotone.1 0 1 true 0 (by norm_num),
   c7_calculateConfidence_monotone.2.1 0 0,
   c7_calculateConfidence_monotone.2.2.1 0 true 0 1 (by norm_num),
   c7_calculateConfidence_monotone.2.2.2 1 true 1⟩

/-- C9: `cosineSimilarity` returns 0 whenever the lengths differ or either
vector has zero magnitude (zero sum of squares) — no exception, treated as
no-signal — and otherwise returns the dot product divided by the product of
the magnitudes. -/
theorem c9_cosineSimilarity_cases :
    ∀ a b : List ℚ,
      (a.length ≠ b.length → cosineSimilarity a b = 0) ∧
      ((a.map fun x => x * x).sum = 0 ∨ (b.map fun x => x * x).sum = 0 →
        cosineSimilarity a b = 0) ∧
      (a.length = b.length →
        (a.map fun x => x * x).sum ≠ 0 →
        (b.map fun x => x * x).sum ≠ 0 →
        cosineSimilarity a b =
          ((((a.zip b).map fun p => p.1 * p.2).sum : ℚ) : ℝ) /
            (Real.sqrt (((a.map fun x => x * x).sum : ℚ) : ℝ) *
              Real.sqrt (((b.map fun x => x * x).sum : ℚ) : ℝ))) := by
  intro a b
  refine ⟨?_, ?_, ?_⟩
  · intro h
    simp [cosineSimilarity, h]
  · intro h
    by_cases hl : a.length = b.length
    · simp [cosineSimilarity, hl, h]
    · simp [cosineSimilarity, hl]
  · intro hl ha hb
    simp [cosineSimilarity, hl, ha, hb]
/-- Witness for C9: a length mismatch and a zero-magnitude vector both score 0. -/
theorem c9_witness :
    cosineSimilarity [1, 2] [1] = 0 ∧ cosineSimilarity [0] [1] = 0 :=
  ⟨(c9_cosineSimilarity_cases [1, 2] [1]).1 (by decide),
   (c9_cosineSimilarity_cases [0] [1]).2.1 (Or.inl (by norm_num))⟩

/-- C5 counterexample: the claim states `textSimilarity "" "" = 0` (the
empty-union case), but a JavaScript `split` of the empty string yields the
singleton empty token, so the union is the non-empty set `{""}` and the code
returns `1`, not `0`. -/
theorem c5_counterexample : textSimilarity "" "" = 1 ∧ (1 : ℚ) ≠ 0 := by
  constructor
  · simp only [textSimilarity]
    rw [show (tokensOf "" ∩ tokensOf "").card = 1 from by decide,
        show (tokensOf "" ∪ tokensOf "").card = 1 from by decide]
    norm_num
  · norm_num

/-- C5 (amended): for every string `s` — the empty string included —
`textSimilarity s s = 1`: identical strings yield identical token sets, the
intersection and union coincide, and the token set is never empty because
`split(/\s+/)` always returns at least one token (`""` tokenizes to the
singleton empty token, so the empty-empty case also yields 1, not 0). -/
theorem c5_textSimilarity_self : ∀ s : String, textSimilarity s s = 1 := by
  intro s
  obtain ⟨a, ha⟩ := tokensOf_nonempty s
  have hcard : ((tokensOf s).card : ℚ) ≠ 0 :=
    Nat.cast_ne_zero.mpr (Finset.card_ne_zero_of_mem ha)
  simp only [textSimilarity]
  rw [Finset.inter_self, Finset.union_self]
  exact div_self hcard

/-- C8: `extractErrorSignature` always returns at most 100 characters; when one
of the three error patterns matches, the signature is the matched capture group
(truncated); otherwise it is the first non-blank line of stderr truncated to
100 characters, and empty stderr yields the empty string. -/
theorem c8_extractErrorSignature_spec :
    ∀ stderr command : String,
      (extractErrorSignature stderr command).length ≤ 100 ∧
      (∀ g : String, jsErrorMatch stderr = some g →
        extractErrorSignature stderr command = jsSubstring0 g 100) ∧
      (jsErrorMatch stderr = none →
        extractErrorSignature stderr command =
          jsSubstring0 (firstNonBlankLine stderr) 100) ∧
      (stderr = "" → extractErrorSignature stderr command = "") := by
  intro stderr command
  refine ⟨?_, ?_, ?_, ?_⟩
  · unfold extractErrorSignature
    cases jsErrorMatch stderr with
    | none => exact jsSubstring0_length_le _ _
    | some g => exact jsSubstring0_length_le _ _
  · intro g hg
    unfold extractErrorSignature
    rw [hg]
  · intro hg
    unfold extractErrorSignature
    rw [hg]
  · intro h
    subst h
    unfold extractErrorSignature
    rw [show jsErrorMatch "" = none from by decide]
    decide
/-- Witness for C8 on concrete stderr texts: an `Error:` pattern match, a
plain-text fallback, and the empty string. -/
theorem c8_witness :
    (extractErrorSignature "Error: no such file" "npm start").length ≤ 100 ∧
    extractErrorSignature "Error: no such file" "npm start" =
      jsSubstring0 "Error" 100 ∧
    extractErrorSignature "plain text" "npm start" =
      jsSubstring0 (firstNonBlankLine "plain text") 100 ∧
    extractErrorSignature "" "npm start" = "" :=
  ⟨(c8_extractErrorSignature_spec "Error: no such file" "npm start").1,
   (c8_extractErrorSignature_spec "Error: no such file" "npm start").2.1 "Error"
     (by decide),
   (c8_extractErrorSignature_spec "plain text" "npm start").2.2.1 (by decide),
   (c8_extractErrorSignature_spec "" "npm start").2.2.2 rfl⟩

/-- A concrete episode with a fractional embedding component, as produced by
the OpenAI embedding API (components are floats in roughly [-1, 1]). -/
def c6episode : Episode :=
  { id := none
    project_hash := "p"
    directory := "/p"
    git_branch := none
    problem_summary := "sig"
    environment := "env"
    fix_sequence := "npm install"
    keywords := "kw"
    embedding := some [1 / 2]
    first_seen := 0
    last_seen := 0
    occurrence_count := 1 }

/-- C6 (code bug): inserting an episode whose embedding is `[0.5]` and reading
it back through `findSimilarEpisode` yields an embedding of the same length
but with component `0`, not `0.5`: `insertEpisode` serialises the numeric
vector with `new Uint8Array(...)`, truncating every component to a byte, and
`rowToEpisode` returns those bytes.  The stored vector is therefore not the
original vector, contradicting the claim (and destroying stored-vector
similarity, which is the code's own purpose for the column). -/
theorem c6_embedding_roundtrip_bug :
    ((((emptyStore.insertEpisode c6episode).2.findSimilarEpisode "p" "sig").map
        fun e => e.embedding) = some (some [0])) ∧
    c6episode.embedding = some [1 / 2] ∧
    (0 : ℚ) ≠ 1 / 2 ∧
    ((((emptyStore.insertEpisode c6episode).2.findSimilarEpisode "p" "sig").map
        fun e => e.embedding.map List.length) = some (some 1)) := by
  have hu : toUint8 (1 / 2) = 0 := by
    unfold toUint8
    rw [show (1 / 2 : ℚ).num = 1 from by norm_num,
        show (1 / 2 : ℚ).den = 2 from by norm_num]
    norm_num
  refine ⟨?_, rfl, by norm_num, ?_⟩
  · show some (some [((toUint8 (1 / 2) : ℕ) : ℚ)]) = some (some [0])
    rw [hu]
    norm_num
  · rfl

/-- The pre-existing episode row for the C3 witness. -/
def c3row : EpisodeRow :=
  { id := 1
    project_hash := hashProjectPath "/p"
    directory := "/p"
    git_branch := none
    problem_summary := "boom"
    environment := "env"
    fix_sequence := "ls"
    keywords := ""
    embedding := none
    first_seen := 0
    last_seen := 10
    occurrence_count := 2 }

/-- A store already holding `c3row`. -/
def c3store : Store := ⟨[c3row], [], 2, 1⟩

/-- The recurring error event for the C3 witness: same directory, same
signature as `c3row`. -/
def c3event : TerminalEvent :=
  { timestamp := 50
    cwd := "/p"
    git_branch := none
    command := "make"
    exit_code := 1
    stderr := "boom"
    stdout_truncated := ""
    session_id := "s"
    project_hash := hashProjectPath "/p" }

/-- A following event for the C3 witness. -/
def c3follow : RawEvent :=
  { id := some 1
    episode_id := none
    timestamp := 60
    cwd := "/p"
    git_branch := none
    command := "ls"
    exit_code := 0
    stderr := ""
    stdout_truncated := ""
    session_id := "s" }

/-- C3: when an episode with the event's project identity and extracted
problem signature already exists, `extractEpisode` on a non-empty
following-events list creates no second episode: it returns `null`, sets the
existing row's `last_seen` to the current time and its `occurrence_count` to
one more than the existing episode's count, leaves every `(project identity,
problem signature)` pair (and the episode count, and the raw events) unchanged
— so at most one episode per pair ever exists. -/
theorem c3_extractEpisode_dedup
    (now : ℤ) (f : EmbedFn) (st : Store) (ev : TerminalEvent)
    (following : List RawEvent) (ex : Episode)
    (hne : following ≠ [])
    (hfind : st.findSimilarEpisode (hashProjectPath ev.cwd)
      (extractErrorSignature ev.stderr ev.command) = some ex) :
    (extractEpisode now f st ev following).1 = none ∧
    (extractEpisode now f st ev following).2.episodes =
      st.episodes.map (fun r =>
        if r.id = ex.id.getD 0 then
          { r with last_seen := now, occurrence_count := ex.occurrence_count + 1 }
        else r) ∧
    ((extractEpisode now f st ev following).2.episodes.map
        fun r => (r.project_hash, r.problem_summary)) =
      (st.episodes.map fun r => (r.project_hash, r.problem_summary)) ∧
    (extractEpisode now f st ev following).2.episodes.length =
      st.episodes.length ∧
    (extractEpisode now f st ev following).2.events = st.events := by
  have hempty : following.isEmpty = false := by
    cases following with
    | nil => exact absurd rfl hne
    | cons a as => rfl
  have key : extractEpisode now f st ev following =
      (none, st.updateEpisode (ex.id.getD 0)
        ⟨some now, some (ex.occurrence_count + 1), none⟩) := by
    simp only [extractEpisode, hempty, Bool.false_eq_true, if_false, hfind]
  have hep : (extractEpisode now f st ev following).2.episodes =
      st.episodes.map (fun r =>
        if r.id = ex.id.getD 0 then
          { r with last_seen := now, occurrence_count := ex.occurrence_count + 1 }
        else r) := by
    rw [key]
    simp only [Store.updateEpisode]
    apply List.map_congr_left
    intro r _
    by_cases h : r.id = ex.id.getD 0 <;> simp [h]
  refine ⟨by rw [key], hep, ?_, ?_, ?_⟩
  · rw [hep, List.map_map]
    apply List.map_congr_left
    intro r _
    by_cases h : r.id = ex.id.getD 0 <;> simp [h]
  · rw [hep, List.length_map]
  · rw [key]
    simp [Store.updateEpisode]
/-- Witness for C3: a recurrence of `c3row`'s problem in `c3store`. -/
theorem c3_witness :
    (extractEpisode 99 (fun _ => none) c3store c3event [c3follow]).1 = none ∧
    (extractEpisode 99 (fun _ => none) c3store c3event [c3follow]).2.episodes =
      c3store.episodes.map (fun r =>
        if r.id = (rowToEpisode c3row).id.getD 0 then
          { r with last_seen := 99,
                   occurrence_count := (rowToEpisode c3row).occurrence_count + 1 }
        else r) ∧
    ((extractEpisode 99 (fun _ => none) c3store c3event [c3follow]).2.episodes.map
        fun r => (r.project_hash, r.problem_summary)) =
      (c3store.episodes.map fun r => (r.project_hash, r.problem_summary)) ∧
    (extractEpisode 99 (fun _ => none) c3store c3event [c3follow]).2.episodes.length =
      c3store.episodes.length ∧
    (extractEpisode 99 (fun _ => none) c3store c3event [c3follow]).2.events =
      c3store.events :=
  c3_extractEpisode_dedup 99 (fun _ => none) c3store c3event [c3follow]
    (rowToEpisode c3row) (by decide) (by decide)

/-- Removes the row id of a raw event, for comparing stored rows by their
data. -/
def stripId (e : RawEvent) : RawEvent := { e with id := none }

/-- Folding raw-event inserts over a list never touches the episodes table. -/
theorem foldl_insertRawEvent_episodes (g : RawEvent → RawEvent) :
    ∀ (l : List RawEvent) (st : Store),
      (l.foldl (fun s e => (s.insertRawEvent (g e)).2) st).episodes = st.episodes := by
  intro l
  induction l with
  | nil => intro st; rfl
  | cons a as ih =>
    intro st
    rw [List.foldl_cons, ih]
    rfl

/-- Folding raw-event inserts appends exactly the mapped records (compared with
ids stripped, since each insert assigns a fresh row id). -/
theorem foldl_insertRawEvent_events (g : RawEvent → RawEvent) :
    ∀ (l : List RawEvent) (st : Store),
      (l.foldl (fun s e => (s.insertRawEvent (g e)).2) st).events.map stripId =
        st.events.map stripId ++ l.map fun e => stripId (g e) := by
  intro l
  induction l with
  | nil => intro st; simp
  | cons a as ih =>
    intro st
    rw [List.foldl_cons, ih]
    simp only [Store.insertRawEvent, List.map_append, List.map_cons, List.map_nil,
      List.append_assoc, List.cons_append, List.nil_append, List.map]
    have : stripId { g a with id := some st.nextEventId } = stripId (g a) := rfl
    rw [this]

/-- C4 (amended): when a new episode is created (non-empty following events, no
existing episode for the pair), its fix sequence is the `" && "`-join of the
commands of the following events with exit code 0, in order, truncated to the
first 5 — provided that join is non-empty; when the join is empty (in
particular whenever no following event has exit code 0, but also when the only
successful commands are empty strings) the fix sequence is the sentinel
`"Unknown fix"` — and the episode is still created and persisted either way. -/
theorem c4_fix_sequence
    (now : ℤ) (f : EmbedFn) (st : Store) (ev : TerminalEvent)
    (following : List RawEvent)
    (hne : following ≠ [])
    (hfind : st.findSimilarEpisode (hashProjectPath ev.cwd)
      (extractErrorSignature ev.stderr ev.command) = none) :
    ((extractEpisode now f st ev following).1.map fun e => e.fix_sequence) =
      some (if String.intercalate " && "
            (((following.filter fun e => e.exit_code == 0).map
              fun e => e.command).take 5) = ""
        then "Unknown fix"
        else String.intercalate " && "
            (((following.filter fun e => e.exit_code == 0).map
              fun e => e.command).take 5)) ∧
    (extractEpisode now f st ev following).2.episodes.length =
      st.episodes.length + 1 ∧
    ((extractEpisode now f st ev following).2.episodes.getLast?.map
        fun r => r.fix_sequence) =
      some (if String.intercalate " && "
            (((following.filter fun e => e.exit_code == 0).map
              fun e => e.command).take 5) = ""
        then "Unknown fix"
        else String.intercalate " && "
            (((following.filter fun e => e.exit_code == 0).map
              fun e => e.command).take 5)) := by
  have hempty : following.isEmpty = false := by
    cases following with
    | nil => exact absurd rfl hne
    | cons a as => rfl
  have hraw : ∀ (s : Store) (x : RawEvent), (s.insertRawEvent x).2.episodes = s.episodes :=
    fun s x => rfl
  simp only [extractEpisode, hempty, Bool.false_eq_true, if_false, hfind,
    Store.insertEpisode, beq_iff_eq]
  refine ⟨?_, ?_, ?_⟩
  · split <;> simp
  · split <;>
      simp [foldl_insertRawEvent_episodes, hraw]
  · split <;>
      simp [foldl_insertRawEvent_episodes, hraw, List.getLast?_concat]

/-- The error event for the C4 witness and counterexample. -/
def c4event : TerminalEvent :=
  { timestamp := 0
    cwd := "/q"
    git_branch := none
    command := "npm test"
    exit_code := 1
    stderr := "boom"
    stdout_truncated := ""
    session_id := "s"
    project_hash := "" }

/-- First successful follow-up command. -/
def c4f1 : RawEvent :=
  { id := some 1, episode_id := none, timestamp := 1, cwd := "/q", git_branch := none,
    command := "npm install", exit_code := 0, stderr := "", stdout_truncated := "",
    session_id := "s" }

/-- Second successful follow-up command. -/
def c4f2 : RawEvent :=
  { c4f1 with id := some 2, timestamp := 2, command := "npm test" }

/-- Third successful follow-up command. -/
def c4f3 : RawEvent :=
  { c4f1 with id := some 3, timestamp := 3, command := "npm run build" }

/-- A follow-up event that succeeded but has an empty command string. -/
def c4empty : RawEvent :=
  { c4f1 with id := some 4, timestamp := 4, command := "" }

/-- Witness for C4: three successful follow-up commands produce the three
commands joined in order, and the episode is persisted. -/
theorem c4_witness :
    ((extractEpisode 9 (fun _ => none) emptyStore c4event [c4f1, c4f2, c4f3]).1.map
        fun e => e.fix_sequence) =
      some (if String.intercalate " && "
            ((([c4f1, c4f2, c4f3].filter fun e => e.exit_code == 0).map
              fun e => e.command).take 5) = ""
        then "Unknown fix"
        else String.intercalate " && "
            ((([c4f1, c4f2, c4f3].filter fun e => e.exit_code == 0).map
              fun e => e.command).take 5)) ∧
    (extractEpisode 9 (fun _ => none) emptyStore c4event [c4f1, c4f2, c4f3]).2.episodes.length =
      emptyStore.episodes.length + 1 ∧
    ((extractEpisode 9 (fun _ => none) emptyStore c4event [c4f1, c4f2, c4f3]).2.episodes.getLast?.map
        fun r => r.fix_sequence) =
      some (if String.intercalate " && "
            ((([c4f1, c4f2, c4f3].filter fun e => e.exit_code == 0).map
              fun e => e.command).take 5) = ""
        then "Unknown fix"
        else String.intercalate " && "
            ((([c4f1, c4f2, c4f3].filter fun e => e.exit_code == 0).map
              fun e => e.command).take 5)) :=
  c4_fix_sequence 9 (fun _ => none) emptyStore c4event [c4f1, c4f2, c4f3]
    (by decide) (by decide)

/-- C4 counterexample: a following event with exit code 0 whose command is the
empty string.  The claim predicts the fix sequence is the join of the
successful commands — the empty string — but `join || 'Unknown fix'` treats
the empty join as falsy, so the code stores the sentinel `"Unknown fix"`
even though a following event did have exit code 0. -/
theorem c4_counterexample :
    ((extractEpisode 9 (fun _ => none) emptyStore c4event [c4empty]).1.map
        fun e => e.fix_sequence) = some "Unknown fix" ∧
    String.intercalate " && "
        ((([c4empty].filter fun e => e.exit_code == 0).map
          fun e => e.command).take 5) = "" ∧
    ("Unknown fix" : String) ≠ "" := by
  refine ⟨by decide, by decide, by decide⟩

/-- Raw-event bookkeeping of `extractEpisode`: when it returns `null` it
inserts no raw events; when it creates an episode it appends the triggering
error event and every following event, linked to the new episode id (compared
with row ids stripped). -/
theorem extractEpisode_events_cases (now : ℤ) (f : EmbedFn) (st : Store)
    (ev : TerminalEvent) (following : List RawEvent) :
    (extractEpisode now f st ev following).2.events.map stripId =
      st.events.map stripId ++
        (match (extractEpisode now f st ev following).1 with
         | none => []
         | some ep =>
           toLinkedRaw (ep.id.getD 0) ev ::
             following.map fun e => relinkRaw (ep.id.getD 0) e) := by
  by_cases hemp : following.isEmpty
  · simp [extractEpisode, hemp]
  · have hemp' : following.isEmpty = false := by simpa using hemp
    cases hfind : st.findSimilarEpisode (hashProjectPath ev.cwd)
        (extractErrorSignature ev.stderr ev.command) with
    | some ex =>
      simp [extractEpisode, hemp', hfind, Store.updateEpisode]
    | none =>
      have hsnd : ∀ (s : Store) (x : RawEvent),
          (s.insertRawEvent x).2.events = s.events ++ [{ x with id := some s.nextEventId }] :=
        fun s x => rfl
      simp only [extractEpisode, hemp', Bool.false_eq_true, if_false, hfind,
        Store.insertEpisode]
      split <;>
      · rw [foldl_insertRawEvent_events]
        simp [hsnd, stripId, toLinkedRaw, toUnlinkedRaw, relinkRaw]

/-- C10: `processEvent` persists an unlinked raw record (`episode_id = null`)
for every incoming event — non-errors included — before classification; when
the event is an error that produces a new episode, `extractEpisode`
additionally persists the triggering event linked to the new episode id and a
linked copy of every following event, so the error event is stored twice (once
unlinked, once linked) and every following event — which is itself already a
stored row, since the window is read back from the store — gains a duplicate
linked copy (rows compared with their auto-increment ids stripped). -/
theorem c10_processEvent_raw_events
    (now : ℤ) (f : EmbedFn) (st : Store) (ev : TerminalEvent) :
    ((processEvent now f st ev).2.events.map stripId =
      st.events.map stripId ++
        toUnlinkedRaw ev ::
          (match (processEvent now f st ev).1 with
           | none => []
           | some ep =>
             toLinkedRaw (ep.id.getD 0) ev ::
               (followingEventsOf now (st.insertRawEvent (toUnlinkedRaw ev)).2 ev).map
                 fun e => relinkRaw (ep.id.getD 0) e)) ∧
    ∀ e ∈ followingEventsOf now (st.insertRawEvent (toUnlinkedRaw ev)).2 ev,
      e ∈ (st.insertRawEvent (toUnlinkedRaw ev)).2.events := by
  constructor
  · have hstep : (st.insertRawEvent (toUnlinkedRaw ev)).2.events.map stripId =
        st.events.map stripId ++ [toUnlinkedRaw ev] := by
      simp [Store.insertRawEvent, stripId, toUnlinkedRaw]
    by_cases herr : isError ev.stderr ev.exit_code
    · have h := extractEpisode_events_cases now f
        (st.insertRawEvent (toUnlinkedRaw ev)).2 ev
        (followingEventsOf now (st.insertRawEvent (toUnlinkedRaw ev)).2 ev)
      simp only [processEvent, herr, Bool.not_true, Bool.false_eq_true, if_false] at h ⊢
      rw [h, hstep, List.append_assoc]
      rfl
    · have herr' : isError ev.stderr ev.exit_code = false := by simpa using herr
      simp [processEvent, herr', hstep]
  · intro e he
    have h1 : e ∈ (st.insertRawEvent (toUnlinkedRaw ev)).2.getRecentEventsForDirectory
        ev.cwd (now - 5 * 60 * 1000) := by
      have := (List.mem_insertionSort
        (fun a b : RawEvent => a.timestamp ≤ b.timestamp)).mp he
      exact List.mem_of_mem_filter this
    have h2 := (List.mem_insertionSort
      (fun a b : RawEvent => b.timestamp ≤ a.timestamp)).mp h1
    exact List.mem_of_mem_filter h2

open scoped Classical in
/-- Unfolded form of `retrieveSimilarEpisodes`: score, filter by the
threshold, sort descending by confidence, truncate.  (The source's early
return on an empty candidate list agrees with the general formula.) -/
theorem retrieveSimilarEpisodes_eq (f : EmbedFn) (st : Store)
    (ctx : RetrievalContext) (n : ℕ) :
    retrieveSimilarEpisodes f st ctx n =
      (List.insertionSort (fun a b : RetrievalResult => b.confidence ≤ a.confidence)
        (((st.getEpisodesByProject (hashProjectPath ctx.cwd)).map
            (scoreEpisode (f (currentErrorText ctx)) ctx (hashProjectPath ctx.cwd))).filter
          fun r => CONFIDENCE_THRESHOLD ≤ r.confidence)).take n := by
  by_cases hc : (st.getEpisodesByProject (hashProjectPath ctx.cwd)).isEmpty
  · have hnil : st.getEpisodesByProject (hashProjectPath ctx.cwd) = [] := by
      simpa [List.isEmpty_iff] using hc
    simp [retrieveSimilarEpisodes, hc, hnil]
  · have hc' : (st.getEpisodesByProject (hashProjectPath ctx.cwd)).isEmpty = false := by
      simpa using hc
    simp [retrieveSimilarEpisodes, hc']

open scoped Classical in
/-- The head of the descending-confidence sort, truncated to one element, is a
member of the scored list of maximal confidence. -/
theorem take_one_sorted_desc_max (res : List RetrievalResult)
    (top : RetrievalResult) (rest : List RetrievalResult)
    (h : (List.insertionSort (fun a b : RetrievalResult => b.confidence ≤ a.confidence)
        res).take 1 = top :: rest) :
    top ∈ res ∧ ∀ x ∈ res, x.confidence ≤ top.confidence := by
  haveI hT : IsTotal RetrievalResult (fun a b => b.confidence ≤ a.confidence) :=
    ⟨fun a b => le_total b.confidence a.confidence⟩
  haveI hTr : IsTrans RetrievalResult (fun a b => b.confidence ≤ a.confidence) :=
    ⟨fun a b c hab hbc => le_trans hbc hab⟩
  cases hs : List.insertionSort (fun a b : RetrievalResult => b.confidence ≤ a.confidence)
      res with
  | nil => rw [hs] at h; simp at h
  | cons a t =>
    rw [hs] at h
    simp only [List.take] at h
    have ha : a = top := (List.cons_eq_cons.mp h).1
    subst ha
    constructor
    · exact (List.mem_insertionSort _).mp (hs ▸ List.mem_cons_self a t)
    · intro x hx
      have hx' : x ∈ List.insertionSort
          (fun a b : RetrievalResult => b.confidence ≤ a.confidence) res :=
        (List.mem_insertionSort _).mpr hx
      rw [hs] at hx'
      rcases List.mem_cons.mp hx' with heq | hmem
      · rw [heq]
      · have hsorted := List.sorted_insertionSort
          (fun a b : RetrievalResult => b.confidence ≤ a.confidence) res
        rw [hs] at hsorted
        exact List.rel_of_sorted_cons hsorted x hmem

open scoped Classical in
/-- Sorting then truncating a non-empty list to one element is non-empty. -/
theorem take_one_sorted_desc_ne_nil (res : List RetrievalResult) (hne : res ≠ []) :
    (List.insertionSort (fun a b : RetrievalResult => b.confidence ≤ a.confidence)
      res).take 1 ≠ [] := by
  intro h
  apply hne
  cases hs : List.insertionSort (fun a b : RetrievalResult => b.confidence ≤ a.confidence)
      res with
  | nil =>
    have hperm := List.perm_insertionSort
      (fun a b : RetrievalResult => b.confidence ≤ a.confidence) res
    rw [hs] at hperm
    exact (hperm.symm.eq_nil)
  | cons a t => rw [hs] at h; simp [List.take] at h

open scoped Classical in
/-- C1 (amended): for every retrieval context, `retrieveAndSuggest` shows a
suggestion only when some candidate episode of the context's project reaches
confidence `CONFIDENCE_THRESHOLD = 0.75`: (1) if no candidate reaches the
threshold the result is `shouldShow = false` with null message and null
suggested command; (2) whenever a suggestion is shown, the shown result is a
candidate of maximal confidence (descending sort, truncated to the top
result); (3) if at least one candidate reaches the threshold **and the
retrieval trigger fires** (`shouldRetrieve`: nonzero exit code or an error
marker in stderr) then the suggestion is shown.  The trigger condition in (3)
is the amendment: without it the claim fails, because the gate runs before any
candidate is scored. -/
theorem c1_retrieveAndSuggest_threshold_gate
    (f : EmbedFn) (st : Store) (ctx : RetrievalContext) :
    ((∀ ep ∈ st.getEpisodesByProject (hashProjectPath ctx.cwd),
        (scoreEpisode (f (currentErrorText ctx)) ctx (hashProjectPath ctx.cwd)
            ep).confidence < CONFIDENCE_THRESHOLD) →
      retrieveAndSuggest f st ctx = ⟨false, none, none⟩) ∧
    ((retrieveAndSuggest f st ctx).shouldShow = true →
      ∃ ep ∈ st.getEpisodesByProject (hashProjectPath ctx.cwd),
        CONFIDENCE_THRESHOLD ≤
          (scoreEpisode (f (currentErrorText ctx)) ctx (hashProjectPath ctx.cwd)
            ep).confidence ∧
        retrieveAndSuggest f st ctx =
          ⟨true,
            some (formatRetrievalResult
              (scoreEpisode (f (currentErrorText ctx)) ctx (hashProjectPath ctx.cwd) ep)),
            suggestNextStep
              (scoreEpisode (f (currentErrorText ctx)) ctx (hashProjectPath ctx.cwd) ep)⟩ ∧
        ∀ ep' ∈ st.getEpisodesByProject (hashProjectPath ctx.cwd),
          (scoreEpisode (f (currentErrorText ctx)) ctx (hashProjectPath ctx.cwd)
              ep').confidence ≤
            (scoreEpisode (f (currentErrorText ctx)) ctx (hashProjectPath ctx.cwd)
              ep).confidence) ∧
    (shouldRetrieve ctx = true →
      (∃ ep ∈ st.getEpisodesByProject (hashProjectPath ctx.cwd),
        CONFIDENCE_THRESHOLD ≤
          (scoreEpisode (f (currentErrorText ctx)) ctx (hashProjectPath ctx.cwd)
            ep).confidence) →
      (retrieveAndSuggest f st ctx).shouldShow = true) := by
  classical
  refine ⟨?_, ?_, ?_⟩
  · -- (1) all below threshold: silent
    intro hall
    have hfil : (((st.getEpisodesByProject (hashProjectPath ctx.cwd)).map
        (scoreEpisode (f (currentErrorText ctx)) ctx (hashProjectPath ctx.cwd))).filter
          fun r => CONFIDENCE_THRESHOLD ≤ r.confidence) = [] := by
      apply List.eq_nil_iff_forall_not_mem.mpr
      intro r hr
      have h1 := List.mem_filter.mp hr
      obtain ⟨ep, hep, hrep⟩ := List.mem_map.mp h1.1
      have h2 : CONFIDENCE_THRESHOLD ≤ r.confidence := by simpa using h1.2
      rw [← hrep] at h2
      exact absurd h2 (not_le.mpr (hall ep hep))
    by_cases hsr : shouldRetrieve ctx
    · simp [retrieveAndSuggest, hsr, retrieveSimilarEpisodes_eq, hfil]
    · simp [retrieveAndSuggest, hsr]
  · -- (2) a shown result is a maximal-confidence candidate above threshold
    intro hshow
    by_cases hsr : shouldRetrieve ctx
    · cases hres : retrieveSimilarEpisodes f st ctx 1 with
      | nil => simp [retrieveAndSuggest, hsr, hres] at hshow
      | cons top rest =>
        have hout : retrieveAndSuggest f st ctx =
            ⟨true, some (formatRetrievalResult top), suggestNextStep top⟩ := by
          simp [retrieveAndSuggest, hsr, hres]
        rw [retrieveSimilarEpisodes_eq] at hres
        obtain ⟨htop_mem, htop_max⟩ := take_one_sorted_desc_max _ top rest hres
        have h1 := List.mem_filter.mp htop_mem
        have htop_thr : CONFIDENCE_THRESHOLD ≤ top.confidence := by simpa using h1.2
        obtain ⟨ep, hep, hrep⟩ := List.mem_map.mp h1.1
        refine ⟨ep, hep, ?_, ?_, ?_⟩
        · rw [hrep]; exact htop_thr
        · rw [hrep]; exact hout
        · intro ep' hep'
          rw [hrep]
          by_cases hge : CONFIDENCE_THRESHOLD ≤
              (scoreEpisode (f (currentErrorText ctx)) ctx (hashProjectPath ctx.cwd)
                ep').confidence
          · apply htop_max
            exact List.mem_filter.mpr
              ⟨List.mem_map_of_mem _ hep', by simpa using hge⟩
          · exact le_trans (le_of_lt (not_le.mp hge)) htop_thr
    · simp [retrieveAndSuggest, hsr] at hshow
  · -- (3) trigger fires and some candidate clears: shown
    intro hsr hex
    obtain ⟨ep, hep, hthr⟩ := hex
    have hmem : (scoreEpisode (f (currentErrorText ctx)) ctx (hashProjectPath ctx.cwd) ep) ∈
        (((st.getEpisodesByProject (hashProjectPath ctx.cwd)).map
          (scoreEpisode (f (currentErrorText ctx)) ctx (hashProjectPath ctx.cwd))).filter
            fun r => CONFIDENCE_THRESHOLD ≤ r.confidence) :=
      List.mem_filter.mpr ⟨List.mem_map_of_mem _ hep, by simpa using hthr⟩
    have hne : (((st.getEpisodesByProject (hashProjectPath ctx.cwd)).map
        (scoreEpisode (f (currentErrorText ctx)) ctx (hashProjectPath ctx.cwd))).filter
          fun r => CONFIDENCE_THRESHOLD ≤ r.confidence) ≠ [] := by
      intro h
      rw [h] at hmem
      exact absurd hmem (List.not_mem_nil _)
    have htake := take_one_sorted_desc_ne_nil _ hne
    cases hres : retrieveSimilarEpisodes f st ctx 1 with
    | nil =>
      rw [retrieveSimilarEpisodes_eq] at hres
      exact absurd hres htake
    | cons top rest => simp [retrieveAndSuggest, hsr, hres]

/-- Witness for C1 at a concrete context with no stored episodes: no candidate
reaches the threshold (vacuously), so the result is silent. -/
theorem c1_witness :
    retrieveAndSuggest (fun _ => none) emptyStore
      ⟨"/p", "make", 1, "boom", none, ""⟩ = ⟨false, none, none⟩ :=
  (c1_retrieveAndSuggest_threshold_gate (fun _ => none) emptyStore
      ⟨"/p", "make", 1, "boom", none, ""⟩).1
    (by
      intro ep hep
      simp [Store.getEpisodesByProject, emptyStore] at hep)

/-- The stored episode for the C1 counterexample: it matches the live context
perfectly, so its confidence is 1. -/
def c1row : EpisodeRow :=
  { id := 1
    project_hash := hashProjectPath "/p"
    directory := "/p"
    git_branch := none
    problem_summary := "hi"
    environment := "env"
    fix_sequence := "npm install"
    keywords := "hi"
    embedding := none
    first_seen := 0
    last_seen := 0
    occurrence_count := 1 }

/-- A store holding `c1row`. -/
def c1store : Store := ⟨[c1row], [], 2, 1⟩

/-- The C1 counterexample context: exit code 0 and stderr free of error
markers, so the retrieval trigger does not fire. -/
def c1ctx : RetrievalContext :=
  { cwd := "/p"
    command := "hi"
    exit_code := 0
    stderr := "hi"
    git_branch := none
    project_hash := hashProjectPath "/p" }

/-- C1 counterexample: a candidate episode of the context's project reaches
confidence 1 ≥ 0.75, yet `retrieveAndSuggest` shows nothing, because
`shouldRetrieve` fails (exit code 0, no error marker) and the gate runs before
any candidate is scored.  This falsifies the claim's "if at least one does,
the shown result is a candidate with maximal confidence". -/
theorem c1_counterexample :
    retrieveAndSuggest (fun _ => none) c1store c1ctx = ⟨false, none, none⟩ ∧
    rowToEpisode c1row ∈ c1store.getEpisodesByProject (hashProjectPath c1ctx.cwd) ∧
    CONFIDENCE_THRESHOLD ≤
      (scoreEpisode ((fun _ => none : EmbedFn) (currentErrorText c1ctx)) c1ctx
        (hashProjectPath c1ctx.cwd) (rowToEpisode c1row)).confidence := by
  refine ⟨?_, ?_, ?_⟩
  · have hsr : shouldRetrieve c1ctx = false := by decide
    simp [retrieveAndSuggest, hsr]
  · decide
  · have hts1 : textSimilarity ("hi" ++ " " ++ "hi") ("hi" ++ " " ++ "hi") = 1 := by
      simp only [textSimilarity]
      rw [show (tokensOf ("hi" ++ " " ++ "hi") ∩ tokensOf ("hi" ++ " " ++ "hi")).card = 1
            from by decide,
          show (tokensOf ("hi" ++ " " ++ "hi") ∪ tokensOf ("hi" ++ " " ++ "hi")).card = 1
            from by decide]
      norm_num
    have hts2 : textSimilarity "hi" "hi" = 1 := by
      simp only [textSimilarity]
      rw [show (tokensOf "hi" ∩ tokensOf "hi").card = 1 from by decide,
          show (tokensOf "hi" ∪ tokensOf "hi").card = 1 from by decide]
      norm_num
    simp only [scoreEpisode, rowToEpisode, c1row, c1ctx, Option.map_none]
    simp only [hts1, hts2]
    rw [beq_self_eq_true]
    rw [show ((1 : ℚ) : ℝ) = 1 from by norm_num]
    norm_num [calculateConfidence, CONFIDENCE_THRESHOLD]

/-- A previously stored raw event in the same directory, within the window and
after the error timestamp, for the C10 witness. -/
def c10prior : RawEvent :=
  { id := some 1
    episode_id := none
    timestamp := 100
    cwd := "/p"
    git_branch := none
    command := "ls"
    exit_code := 0
    stderr := ""
    stdout_truncated := ""
    session_id := "s" }

/-- A store already holding `c10prior`. -/
def c10store : Store := ⟨[], [c10prior], 1, 2⟩

/-- The error event for the C10 witness. -/
def c10event : TerminalEvent :=
  { timestamp := 50
    cwd := "/p"
    git_branch := none
    command := "make"
    exit_code := 1
    stderr := "boom"
    stdout_truncated := ""
    session_id := "s"
    project_hash := "" }

/-- Witness for C10: the concrete following event of `c10store` is indeed an
already-stored row of the store `processEvent` reads it from. -/
theorem c10_witness :
    c10prior ∈ (c10store.insertRawEvent (toUnlinkedRaw c10event)).2.events :=
  (c10_processEvent_raw_events 200 (fun _ => none) c10store c10event).2 c10prior
    (by decide)
